import Mathlib

/-!
Shallow embedding of the `auto_presentation_agent` pipeline
(`outline.py`, `designer.py`, `data_analysis.py`).

Python strings are modelled as Lean `String`; Python `list` as `List`;
Python `dict[str, str]` as an association list `List (String × String)`
with CPython `dict.update` semantics; Python `Optional[T]` as `Option T`.
Python truthiness of a string is `s ≠ ""`; of an `Optional` it is
`isSome` combined with the payload's truthiness where the payload is a
string.  IO-dependent helpers (file reading, table parsing, PDF
extraction, LLM calls) are modelled as oracles supplied in an
environment record: the claims under study do not depend on their
internals, only on how their results are folded into the summary.
-/

/-- ASCII whitespace stripped by Python's `str.strip()` (the inputs of
this pipeline are ASCII; the Unicode-only space code points are not
modelled). -/
def isPySpace (c : Char) : Bool :=
  c = ' ' || c = '\t' || c = '\n' || c = '\r' || c = '\x0b' || c = '\x0c'

/-- Python `str.strip()`: drop leading and trailing whitespace. -/
def pyStrip (s : String) : String :=
  String.mk (((s.data.dropWhile isPySpace).reverse.dropWhile isPySpace).reverse)

/-- Everything after the first `':'` of the list; the whole list when no
colon occurs.  This is `s.split(":", 1)[1]` for a string containing a
colon. -/
def afterFirstColon : List Char → List Char
  | [] => []
  | c :: cs => if c = ':' then cs else afterFirstColon cs

/-- Python `pat in s` for substring containment: prefix test. -/
def hasPrefixL : List Char → List Char → Bool
  | _, [] => true
  | [], _ :: _ => false
  | c :: cs, d :: ds => c == d && hasPrefixL cs ds

/-- Python `pat in s` for substring containment: occurrence test. -/
def containsL : List Char → List Char → Bool
  | [], pat => pat.isEmpty
  | c :: rest, pat => hasPrefixL (c :: rest) pat || containsL rest pat

/-- Python substring containment `pat in s`. -/
def pyIn (pat s : String) : Bool :=
  containsL s.data pat.data

/-- Python `str.lower()` restricted to ASCII case folding (file suffixes
in this pipeline are ASCII). -/
def pyLower (s : String) : String :=
  String.mk (s.data.map Char.toLower)

/-- Truthiness of a Python `Optional[str]`: `None` and `""` are falsy. -/
def pyTruthy : Option String → Bool
  | none => false
  | some s => s ≠ ""

/- ## Data model (`models.py`) -/

/-- Model of `models.ContentSummary`. -/
structure ContentSummary where
  topics : List String
  findings : List String
  data_points : List String
  sources : List String
deriving DecidableEq, Inhabited

/-- Model of `models.OutlineSlide`. -/
structure OutlineSlide where
  title : String
  bullets : List String
  visual_suggestion : Option String
  sources : List String
deriving DecidableEq, Inhabited

/-- Model of `models.OutlinePlan`; the theme dict is an association list. -/
structure OutlinePlan where
  slides : List OutlineSlide
  theme : List (String × String)
deriving DecidableEq, Inhabited

/-- Model of `models.AssetSpec`; `Path` fields are modelled as strings. -/
structure AssetSpec where
  type : String
  path : Option String
  prompt : Option String
  data_ref : Option String
deriving DecidableEq, Inhabited

/-- Model of `models.SlideDraft`. -/
structure SlideDraft where
  title : String
  bullets : List String
  layout : String
  assets : List AssetSpec
  notes : Option String
  sources : List String
deriving DecidableEq, Inhabited

/- ## Outliner (`outline.py`) -/

/-- Source `outline._estimate_slide_count`.  The Python guard
`duration_minutes and duration_minutes > 0` is truthiness (`≠ 0`/not
`None`) conjoined with positivity. -/
def _estimate_slide_count (summary : ContentSummary)
    (duration_minutes : Option Int) : Int :=
  let complexity : Int :=
    max (max (summary.findings.length : Int) (summary.topics.length : Int)) 1
  let fallbackCount : Int := min (max complexity 3) 12
  match duration_minutes with
  | some d => if d ≠ 0 ∧ 0 < d then max d 1 else fallbackCount
  | none => fallbackCount

/-- Source `outline._build_bullets`: first five findings (or one synthetic
bullet), each truncated to 120 characters. -/
def _build_bullets (summary : ContentSummary) (topic : String) : List String :=
  let candidates :=
    if summary.findings.isEmpty then ["Highlight main point for " ++ topic]
    else summary.findings
  let trimmed := candidates.map (fun text => String.mk (text.data.take 120))
  trimmed.take 5

/-- Source `outline._pick_visual`: `"chart"` when data points exist, else
`"image"`. -/
def _pick_visual (summary : ContentSummary) : String :=
  if ¬ summary.data_points.isEmpty then "chart" else "image"

/-- CPython `base.update(updates)` on string dicts represented as
association lists: existing keys keep their position and take the
updated value; keys new to `base` are appended in `updates` order. -/
def dictUpdate (base updates : List (String × String)) :
    List (String × String) :=
  base.map (fun kv => (kv.1, (updates.lookup kv.1).getD kv.2)) ++
    updates.filter (fun kv => (base.lookup kv.1).isNone)

/-- Source `outline._build_theme`: defaults overridden by style preferences. -/
def _build_theme (style_prefs : List (String × String)) :
    List (String × String) :=
  dictUpdate
    [("ratio", "16:9"), ("font", "Segoe UI"), ("palette", "high-contrast")]
    style_prefs

/-- Source `outline.generate_outline`.  The optional LLM refinement
(`_refine_with_llm`, a wrapper around a remote call that on any failure
returns the given bullets) is modelled by an oracle `llm_refine`; the
caller keeps the original bullets when the refined list is empty
(`if refined:`).  `target_count` is provably ≥ 1 (see
`estimate_slide_count_pos`), so `Int.toNat` agrees with Python slice /
`range` semantics at every reachable value. -/
def generate_outline (summary : ContentSummary) (duration_minutes : Option Int)
    (style_prefs : List (String × String))
    (llm_refine : Option (String → List String → List String))
    (use_llm : Bool) : OutlinePlan :=
  let target_count := _estimate_slide_count summary duration_minutes
  let primary_topics :=
    let truncated := summary.topics.take target_count.toNat
    if truncated.isEmpty then ["Overview"] else truncated
  let slides := (List.range target_count.toNat).map fun idx =>
    let topic := primary_topics.getD (idx % primary_topics.length) ""
    let title := topic ++ ": key takeaway"
    let bullets := _build_bullets summary topic
    let bullets :=
      match llm_refine, use_llm with
      | some refine, true =>
        let refined := refine title bullets
        if refined.isEmpty then bullets else refined
      | _, _ => bullets
    let visual := _pick_visual summary
    { title := title, bullets := bullets, visual_suggestion := some visual,
      sources := summary.sources }
  { slides := slides, theme := _build_theme style_prefs }

/- ## Designer (`designer.py`) -/

/-- Source `designer._title_as_conclusion`: keep the trimmed text after the
first colon, else the title unchanged. -/
def _title_as_conclusion (title : String) : String :=
  if ':' ∈ title.data then pyStrip (String.mk (afterFirstColon title.data))
  else title

/-- Body of the `for slide in outline.slides` loop of
`designer.design_slides`, given the layout drawn from the cycle.  The
image generator is an oracle `gen : prompt → assets_dir → Option path`;
`none` covers both a falsy return and a caught exception. -/
def buildDraft (gen : Option (String → String → Option String))
    (assets_dir : Option String) (slide : OutlineSlide) (layout : String) :
    SlideDraft :=
  let assets : List AssetSpec :=
    match slide.visual_suggestion with
    | some vs =>
      if vs ≠ "" then
        let prompt := "Visual for " ++ slide.title
        let path : Option String :=
          match gen, assets_dir with
          | some g, some d => if vs = "image" then g prompt d else none
          | _, _ => none
        [{ type := vs, path := path, prompt := some prompt, data_ref := none }]
      else []
    | none => []
  { title := _title_as_conclusion slide.title,
    bullets := slide.bullets.take 6,
    layout := layout,
    assets := assets,
    notes := some "Drafted per SPEC guidelines.",
    sources := slide.sources }

/-- The `itertools.cycle` iterator state: the list of layouts still to
come first; `next` yields the head and rotates it to the back. -/
def designGo (gen : Option (String → String → Option String))
    (assets_dir : Option String) :
    List OutlineSlide → List String → List SlideDraft
  | [], _ => []
  | slide :: rest, cyc =>
    let layout := cyc.headD ""
    buildDraft gen assets_dir slide layout ::
      designGo gen assets_dir rest (cyc.tail ++ [layout])

/-- Source `designer.design_slides`: a fresh `cycle(["split", "stacked",
"focus"])` is consumed left to right over the outline slides. -/
def design_slides (outline : OutlinePlan)
    (gen : Option (String → String → Option String) := none)
    (assets_dir : Option String := none) : List SlideDraft :=
  designGo gen assets_dir outline.slides ["split", "stacked", "focus"]

/- ## Analyzer (`data_analysis.py`) -/

/-- The attributes of one `pathlib.Path` input that `analyze_request`
inspects: `str(path)`, `path.name`, `path.stem`, `path.suffix`, whether
the file exists, and `str(path.resolve())`. -/
structure FileInfo where
  pathStr : String
  name : String
  stem : String
  suffix : String
  fileExists : Bool
  resolved : String
deriving DecidableEq, Inhabited

/-- The fields of `models.PresentationRequest` that `analyze_request`
and the downstream stages read. -/
structure PresentationRequest where
  inputs : List FileInfo
  instructions : Option String
  duration_minutes : Option Int
  style_prefs : List (String × String)
  use_llm : Bool
deriving Inhabited

/-- Oracles for the IO-dependent helpers of `data_analysis.py`.
`readText` models `_read_text` (warnings, excerpt); `summarizeTable`
models `_summarize_table` (findings, data points); `summarizePdf`
models `_summarize_pdf` (warnings, excerpt); `llmClient` is the
truthiness of the `llm_client` argument and `llmResult` the string
returned by `_summarize_with_llm` (which swallows every error into
`""`). -/
structure AnalysisEnv where
  readText : FileInfo → List String × String
  summarizeTable : FileInfo → List String × List String
  summarizePdf : FileInfo → List String × String
  llmClient : Bool
  llmResult : List String → List String → Option String → String

/-- Source `data_analysis._capture_basic_file_metadata`: list mutation is
modelled by returning the updated `(findings, sources)` pair. -/
def _capture_basic_file_metadata (path : FileInfo)
    (findings sources : List String) : List String × List String :=
  if ¬ path.fileExists then
    (findings ++ ["Missing input noted: " ++ path.pathStr], sources)
  else
    (findings ++ ["Detected input file: " ++ path.name],
      sources ++ [path.resolved])

/-- One iteration of the `for path in request.inputs` loop of
`analyze_request`, acting on the accumulator
`(topics, findings, data_points, sources)`. -/
def analyzeStep (env : AnalysisEnv)
    (acc : List String × List String × List String × List String)
    (path : FileInfo) :
    List String × List String × List String × List String :=
  let (topics, findings, data_points, sources) := acc
  let (findings, sources) := _capture_basic_file_metadata path findings sources
  if ¬ path.fileExists then (topics, findings, data_points, sources)
  else
    let topics := topics ++ [path.stem]
    let suffix := pyLower path.suffix
    if suffix = ".txt" ∨ suffix = ".md" ∨ suffix = ".markdown" then
      let (warnings, snippet) := env.readText path
      let findings := findings ++ warnings
      let findings :=
        if snippet ≠ "" then
          findings ++ ["Excerpt from " ++ path.name ++ ": " ++ snippet]
        else findings
      (topics, findings, data_points, sources)
    else if suffix = ".csv" ∨ suffix = ".tsv" ∨ suffix = ".xlsx" then
      let (table_findings, table_points) := env.summarizeTable path
      (topics, findings ++ table_findings, data_points ++ table_points, sources)
    else if suffix = ".pdf" then
      let (pdf_findings, excerpt) := env.summarizePdf path
      let findings := findings ++ pdf_findings
      let findings :=
        if excerpt ≠ "" then
          findings ++ ["Excerpt from " ++ path.name ++ ": " ++ excerpt]
        else findings
      (topics, findings, data_points, sources)
    else
      (topics, findings ++ ["Unhandled file type noted: " ++ path.name],
        data_points, sources)

/-- Source `data_analysis.analyze_request`. -/
def analyze_request (env : AnalysisEnv) (request : PresentationRequest) :
    ContentSummary :=
  let findings0 : List String :=
    if pyTruthy request.instructions then
      ["User focus: " ++ request.instructions.getD ""]
    else []
  let folded := request.inputs.foldl (analyzeStep env) ([], findings0, [], [])
  let (topics, findings, data_points, sources) := folded
  let findings :=
    if env.llmClient ∧ request.use_llm then
      let llm_summary := env.llmResult findings data_points request.instructions
      if llm_summary ≠ "" then findings ++ ["LLM summary: " ++ llm_summary]
      else findings
    else findings
  { topics := if topics.isEmpty then ["General overview"] else topics,
    findings :=
      if findings.isEmpty then ["Summarize key points and visuals per SPEC.md."]
      else findings,
    data_points := data_points,
    sources := sources }

/- ## Verification-side definitions -/

/-- Spec-side reading of the topic pool: the summary's topics, replaced
by `["Overview"]` when empty. -/
def effectiveTopics (summary : ContentSummary) : List String :=
  if summary.topics.isEmpty then ["Overview"] else summary.topics

/-- State of `cycle(["split", "stacked", "focus"])` after `p` draws,
written out explicitly for the three possible phases. -/
def rotLayouts (p : Nat) : List String :=
  match p % 3 with
  | 0 => ["split", "stacked", "focus"]
  | 1 => ["stacked", "focus", "split"]
  | _ => ["focus", "split", "stacked"]

/-- Concrete summary used by the witnesses (mirrors the repository's
`test_outline_respects_duration_and_visual_choice` fixture). -/
def exSummary : ContentSummary :=
  { topics := ["Alpha", "Beta"],
    findings := ["Result highlights", "Secondary observation"],
    data_points := ["metric_a mean 1.2"],
    sources := [] }

/-- Concrete outline used by the designer witnesses (mirrors the
repository's `test_designer_cycles_layouts_and_converts_titles`
fixture, extended by a blank-after-colon title). -/
def exOutline : OutlinePlan :=
  { slides :=
      [{ title := "Alpha: conclusion here", bullets := ["one", "two"],
         visual_suggestion := some "image", sources := [] },
       { title := "Beta insight", bullets := ["only bullet"],
         visual_suggestion := none, sources := [] },
       { title := "Gamma: findings", bullets := ["x"],
         visual_suggestion := some "chart", sources := [] },
       { title := "Delta:   ", bullets := [],
         visual_suggestion := none, sources := [] }],
    theme := [] }

/-- Analysis environment whose oracles return nothing: the file-reading
helpers contribute no findings and there is no LLM client. -/
def exEnv : AnalysisEnv :=
  { readText := fun _ => ([], ""),
    summarizeTable := fun _ => ([], []),
    summarizePdf := fun _ => ([], ""),
    llmClient := false,
    llmResult := fun _ _ _ => "" }

/-- A non-existent text input. -/
def exMissing : FileInfo :=
  { pathStr := "/tmp/gone.txt", name := "gone.txt", stem := "gone",
    suffix := ".txt", fileExists := false, resolved := "/tmp/gone.txt" }

/-- An existing text input processed after the missing one. -/
def exPresent : FileInfo :=
  { pathStr := "/tmp/notes.txt", name := "notes.txt", stem := "notes",
    suffix := ".txt", fileExists := true, resolved := "/tmp/notes.txt" }

/-- Request containing a missing input followed by an existing one. -/
def exReq : PresentationRequest :=
  { inputs := [exMissing, exPresent], instructions := none,
    duration_minutes := none, style_prefs := [], use_llm := false }

/- ## Helper lemmas: strings and lists -/

theorem getD_take_of_lt {α : Type} (l : List α) :
    ∀ (n i : Nat) (d : α), i < n → (l.take n).getD i d = l.getD i d := by
  induction l with
  | nil => intro n i d _; simp
  | cons a tl ih =>
    intro n i d hin
    cases n with
    | zero => omega
    | succ n =>
      cases i with
      | zero => simp
      | succ i =>
        simp only [List.take_succ_cons, List.getD_cons_succ]
        exact ih n i d (by omega)

theorem hasPrefixL_append_self : ∀ (l r : List Char),
    hasPrefixL (l ++ r) l = true := by
  intro l
  induction l with
  | nil => intro r; cases r <;> rfl
  | cons c cs ih => intro r; simp [hasPrefixL, ih]

theorem containsL_of_hasPrefixL : ∀ (s pat : List Char),
    hasPrefixL s pat = true → containsL s pat = true := by
  intro s pat h
  cases s with
  | nil =>
    cases pat with
    | nil => rfl
    | cons d ds => simp [hasPrefixL] at h
  | cons c rest => simp [containsL, h]

theorem containsL_append_self (l r : List Char) :
    containsL (l ++ r) l = true :=
  containsL_of_hasPrefixL _ _ (hasPrefixL_append_self l r)

theorem afterFirstColon_append : ∀ (pre post : List Char), ':' ∉ pre →
    afterFirstColon (pre ++ ':' :: post) = post := by
  intro pre
  induction pre with
  | nil => intro post _; simp [afterFirstColon]
  | cons c cs ih =>
    intro post h
    have hc : ¬ c = ':' := by
      intro hc; exact h (by simp [hc])
    simp only [List.cons_append, afterFirstColon, if_neg hc]
    exact ih post (fun hm => h (List.mem_cons_of_mem _ hm))

theorem count_afterFirstColon : ∀ cs : List Char, ':' ∈ cs →
    (afterFirstColon cs).count ':' + 1 = cs.count ':' := by
  intro cs
  induction cs with
  | nil => intro h; cases h
  | cons c tl ih =>
    intro h
    by_cases hc : c = ':'
    · subst hc
      simp [afterFirstColon, List.count_cons]
    · have hm : ':' ∈ tl := by
        rcases List.mem_cons.mp h with h' | h'
        · exact absurd h'.symm hc
        · exact h'
      simp only [afterFirstColon, if_neg hc, List.count_cons]
      rw [ih hm]
      simp [hc]

theorem mem_of_mem_dropWhile {p : Char → Bool} {l : List Char} {a : Char}
    (h : a ∈ l.dropWhile p) : a ∈ l := by
  induction l with
  | nil => simp at h
  | cons c tl ih =>
    by_cases hc : p c
    · simp only [List.dropWhile_cons, hc, if_true] at h
      exact List.mem_cons_of_mem _ (ih h)
    · simp only [List.dropWhile_cons, hc, if_false] at h
      exact h

theorem mem_of_mem_pyStrip {s : String} {a : Char}
    (h : a ∈ (pyStrip s).data) : a ∈ s.data := by
  simp only [pyStrip] at h
  rw [List.mem_reverse] at h
  have h1 := mem_of_mem_dropWhile h
  rw [List.mem_reverse] at h1
  exact mem_of_mem_dropWhile h1

theorem pyStrip_of_all_space {cs : List Char}
    (h : cs.all isPySpace = true) : pyStrip (String.mk cs) = "" := by
  have h1 : cs.dropWhile isPySpace = [] := by
    rw [List.dropWhile_eq_nil_iff]
    intro x hx
    exact List.all_eq_true.mp h x hx
  simp [pyStrip, h1]

/- ## Helper lemmas: slide-count estimation -/

theorem estimate_slide_count_some_pos (s : ContentSummary) {d : Int}
    (hd : 0 < d) : _estimate_slide_count s (some d) = d := by
  simp only [_estimate_slide_count]
  rw [if_pos ⟨by omega, hd⟩]
  omega

theorem estimate_slide_count_none (s : ContentSummary) :
    _estimate_slide_count s none =
      min (max (max (max (s.findings.length : Int) (s.topics.length : Int)) 1)
        3) 12 := by
  simp only [_estimate_slide_count]

theorem estimate_slide_count_nonpos (s : ContentSummary) {d : Int}
    (hd : d ≤ 0) :
    _estimate_slide_count s (some d) = _estimate_slide_count s none := by
  simp only [_estimate_slide_count]
  rw [if_neg]
  rintro ⟨h1, h2⟩
  omega

theorem estimate_slide_count_none_bounds (s : ContentSummary) :
    3 ≤ _estimate_slide_count s none ∧ _estimate_slide_count s none ≤ 12 := by
  simp only [_estimate_slide_count]
  constructor
  · exact le_min (le_max_right _ 3) (by norm_num)
  · exact min_le_right _ _

theorem estimate_slide_count_pos (s : ContentSummary)
    (dur : Option Int) : 1 ≤ _estimate_slide_count s dur := by
  cases dur with
  | none => exact le_trans (by norm_num) (estimate_slide_count_none_bounds s).1
  | some d =>
    by_cases hd : 0 < d
    · rw [estimate_slide_count_some_pos s hd]; omega
    · rw [estimate_slide_count_nonpos s (by omega)]
      exact le_trans (by norm_num) (estimate_slide_count_none_bounds s).1

/- ## Helper lemmas: generate_outline shape -/

theorem generate_outline_slides_length (s : ContentSummary)
    (dur : Option Int) (prefs : List (String × String))
    (llm : Option (String → List String → List String)) (u : Bool) :
    (generate_outline s dur prefs llm u).slides.length =
      (_estimate_slide_count s dur).toNat := by
  simp [generate_outline]

theorem generate_outline_theme (s : ContentSummary) (dur : Option Int)
    (prefs : List (String × String))
    (llm : Option (String → List String → List String)) (u : Bool) :
    (generate_outline s dur prefs llm u).theme = _build_theme prefs := rfl

theorem generate_outline_slide_title (s : ContentSummary) (dur : Option Int)
    (prefs : List (String × String))
    (llm : Option (String → List String → List String)) (u : Bool) (i : Nat)
    (h : i < (generate_outline s dur prefs llm u).slides.length) :
    ((generate_outline s dur prefs llm u).slides[i]).title =
      (let truncated := s.topics.take (_estimate_slide_count s dur).toNat
       let primary := if truncated.isEmpty then ["Overview"] else truncated
       primary.getD (i % primary.length) "") ++ ": key takeaway" := by
  simp [generate_outline]

theorem generate_outline_slide_visual (s : ContentSummary) (dur : Option Int)
    (prefs : List (String × String))
    (llm : Option (String → List String → List String)) (u : Bool) (i : Nat)
    (h : i < (generate_outline s dur prefs llm u).slides.length) :
    ((generate_outline s dur prefs llm u).slides[i]).visual_suggestion =
      some (_pick_visual s) := by
  simp [generate_outline]

/- ## Helper lemmas: designer cycle -/

theorem rotLayouts_cases (p : Nat) :
    p % 3 = 0 ∨ p % 3 = 1 ∨ p % 3 = 2 := by omega

theorem rotLayouts_headD (p : Nat) :
    (rotLayouts p).headD "" = ["split", "stacked", "focus"].getD (p % 3) "" := by
  rcases rotLayouts_cases p with h | h | h <;> simp [rotLayouts, h]

theorem rotLayouts_step (p : Nat) :
    (rotLayouts p).tail ++ [(rotLayouts p).headD ""] = rotLayouts (p + 1) := by
  rcases rotLayouts_cases p with h | h | h
  · have h1 : (p + 1) % 3 = 1 := by omega
    simp [rotLayouts, h, h1]
  · have h1 : (p + 1) % 3 = 2 := by omega
    simp [rotLayouts, h, h1]
  · have h1 : (p + 1) % 3 = 0 := by omega
    simp [rotLayouts, h, h1]

theorem rotLayouts_zero : rotLayouts 0 = ["split", "stacked", "focus"] := rfl

theorem designGo_length (gen : Option (String → String → Option String))
    (dir : Option String) :
    ∀ (slides : List OutlineSlide) (cyc : List String),
      (designGo gen dir slides cyc).length = slides.length := by
  intro slides
  induction slides with
  | nil => intro cyc; rfl
  | cons sl rest ih => intro cyc; simp [designGo, ih]

theorem designGo_get? (gen : Option (String → String → Option String))
    (dir : Option String) :
    ∀ (slides : List OutlineSlide) (p i : Nat),
      (designGo gen dir slides (rotLayouts p)).get? i =
        (slides.get? i).map (fun sl =>
          buildDraft gen dir sl
            (["split", "stacked", "focus"].getD ((p + i) % 3) "")) := by
  intro slides
  induction slides with
  | nil => intro p i; simp [designGo]
  | cons sl rest ih =>
    intro p i
    cases i with
    | zero =>
      simp only [designGo, List.get?_cons_zero, Option.map_some', Nat.add_zero]
      rw [rotLayouts_headD]
    | succ i =>
      simp only [designGo, List.get?_cons_succ]
      rw [rotLayouts_step p, ih (p + 1) i]
      have : p + 1 + i = p + (i + 1) := by omega
      rw [this]

theorem design_slides_get? (outline : OutlinePlan)
    (gen : Option (String → String → Option String)) (dir : Option String)
    (i : Nat) :
    (design_slides outline gen dir).get? i =
      (outline.slides.get? i).map (fun sl =>
        buildDraft gen dir sl
          (["split", "stacked", "focus"].getD (i % 3) "")) := by
  have h := designGo_get? gen dir outline.slides 0 i
  rw [rotLayouts_zero] at h
  simpa [design_slides] using h

/- ## Helper lemmas: association-list lookup -/

theorem lookup_append (l₁ l₂ : List (String × String)) (k : String) :
    (l₁ ++ l₂).lookup k =
      match l₁.lookup k with
      | some v => some v
      | none => l₂.lookup k := by
  induction l₁ with
  | nil => simp [List.lookup]
  | cons hd tl ih =>
    obtain ⟨a, b⟩ := hd
    simp only [List.cons_append, List.lookup]
    cases h : k == a <;> simp [ih]

theorem lookup_map_keyed (g : String → String → String)
    (l : List (String × String)) (k : String) :
    (l.map (fun kv => (kv.1, g kv.1 kv.2))).lookup k =
      (l.lookup k).map (g k) := by
  induction l with
  | nil => simp [List.lookup]
  | cons hd tl ih =>
    obtain ⟨a, b⟩ := hd
    simp only [List.map_cons, List.lookup]
    cases h : k == a
    · simp [ih]
    · have : k = a := eq_of_beq h
      subst this
      simp

theorem lookup_filter_keyed (p : String → Bool) (l : List (String × String))
    (k : String) (hk : p k = true) :
    (l.filter (fun kv => p kv.1)).lookup k = l.lookup k := by
  induction l with
  | nil => simp
  | cons hd tl ih =>
    obtain ⟨a, b⟩ := hd
    by_cases hpa : p a = true
    · simp only [List.filter_cons, hpa, if_true, List.lookup]
      cases h : k == a <;> simp [ih]
    · have hka : (k == a) = false := by
        cases h : k == a
        · rfl
        · exact absurd (eq_of_beq h ▸ hk) hpa
      simp only [List.filter_cons, hpa, if_false, List.lookup, hka]
      exact ih

theorem dictUpdate_lookup_override (base updates : List (String × String))
    (k : String) (v : String) (h : updates.lookup k = some v) :
    (dictUpdate base updates).lookup k = some v := by
  unfold dictUpdate
  rw [lookup_append]
  rw [lookup_map_keyed (fun key dflt => (updates.lookup key).getD dflt)]
  cases hb : base.lookup k with
  | some w => simp [h]
  | none =>
    simp only [Option.map_none']
    rw [lookup_filter_keyed (fun key => (base.lookup key).isNone) updates k
      (by simp [hb])]
    exact h

theorem dictUpdate_lookup_keep (base updates : List (String × String))
    (k : String) (w : String) (hu : updates.lookup k = none)
    (hb : base.lookup k = some w) :
    (dictUpdate base updates).lookup k = some w := by
  unfold dictUpdate
  rw [lookup_append]
  rw [lookup_map_keyed (fun key dflt => (updates.lookup key).getD dflt)]
  simp [hb, hu]

theorem analyzeStep_sources (env : AnalysisEnv)
    (acc : List String × List String × List String × List String)
    (f : FileInfo) :
    (analyzeStep env acc f).2.2.2 =
      acc.2.2.2 ++ (if f.fileExists then [f.resolved] else []) := by
  obtain ⟨t, fi, dp, so⟩ := acc
  cases hex : f.fileExists
  · simp [analyzeStep, _capture_basic_file_metadata, hex]
  · simp only [analyzeStep, _capture_basic_file_metadata, hex]
    split_ifs <;> first
      | exact absurd trivial (by assumption)
      | simp

theorem analyzeStep_topics (env : AnalysisEnv)
    (acc : List String × List String × List String × List String)
    (f : FileInfo) :
    (analyzeStep env acc f).1 =
      acc.1 ++ (if f.fileExists then [f.stem] else []) := by
  obtain ⟨t, fi, dp, so⟩ := acc
  cases hex : f.fileExists
  · simp [analyzeStep, _capture_basic_file_metadata, hex]
  · simp only [analyzeStep, _capture_basic_file_metadata, hex]
    split_ifs <;> first
      | exact absurd trivial (by assumption)
      | simp

theorem analyzeStep_findings_extend (env : AnalysisEnv)
    (acc : List String × List String × List String × List String)
    (f : FileInfo) :
    ∃ ext, (analyzeStep env acc f).2.1 = acc.2.1 ++ ext := by
  obtain ⟨t, fi, dp, so⟩ := acc
  cases hex : f.fileExists
  · exact ⟨["Missing input noted: " ++ f.pathStr], by
      simp [analyzeStep, _capture_basic_file_metadata, hex]⟩
  · simp only [analyzeStep, _capture_basic_file_metadata, hex]
    split_ifs <;> first
      | exact absurd trivial (by assumption)
      | (simp only [List.append_assoc]; exact ⟨_, rfl⟩)

theorem analyzeStep_missing (env : AnalysisEnv)
    (acc : List String × List String × List String × List String)
    (f : FileInfo) (h : f.fileExists = false) :
    (analyzeStep env acc f).2.1 =
      acc.2.1 ++ ["Missing input noted: " ++ f.pathStr] := by
  obtain ⟨t, fi, dp, so⟩ := acc
  simp [analyzeStep, _capture_basic_file_metadata, h]

theorem analyzeFold_sources (env : AnalysisEnv) :
    ∀ (inputs : List FileInfo)
      (acc : List String × List String × List String × List String),
      (inputs.foldl (analyzeStep env) acc).2.2.2 =
        acc.2.2.2 ++
          (inputs.filter (fun f => f.fileExists)).map (fun f => f.resolved) := by
  intro inputs
  induction inputs with
  | nil => intro acc; simp
  | cons f rest ih =>
    intro acc
    simp only [List.foldl_cons, List.filter_cons]
    rw [ih, analyzeStep_sources]
    cases hex : f.fileExists <;> simp [hex]

theorem analyzeFold_topics (env : AnalysisEnv) :
    ∀ (inputs : List FileInfo)
      (acc : List String × List String × List String × List String),
      (inputs.foldl (analyzeStep env) acc).1 =
        acc.1 ++
          (inputs.filter (fun f => f.fileExists)).map (fun f => f.stem) := by
  intro inputs
  induction inputs with
  | nil => intro acc; simp
  | cons f rest ih =>
    intro acc
    simp only [List.foldl_cons, List.filter_cons]
    rw [ih, analyzeStep_topics]
    cases hex : f.fileExists <;> simp [hex]

theorem analyzeFold_findings_extend (env : AnalysisEnv) :
    ∀ (inputs : List FileInfo)
      (acc : List String × List String × List String × List String),
      ∃ ext, (inputs.foldl (analyzeStep env) acc).2.1 = acc.2.1 ++ ext := by
  intro inputs
  induction inputs with
  | nil => intro acc; exact ⟨[], by simp⟩
  | cons f rest ih =>
    intro acc
    obtain ⟨e1, he1⟩ := analyzeStep_findings_extend env acc f
    obtain ⟨e2, he2⟩ := ih (analyzeStep env acc f)
    exact ⟨e1 ++ e2, by simp [List.foldl_cons, he2, he1]⟩

theorem analyzeFold_missing_mem (env : AnalysisEnv) :
    ∀ (inputs : List FileInfo)
      (acc : List String × List String × List String × List String)
      (f : FileInfo), f ∈ inputs → f.fileExists = false →
      ("Missing input noted: " ++ f.pathStr) ∈
        (inputs.foldl (analyzeStep env) acc).2.1 := by
  intro inputs
  induction inputs with
  | nil => intro acc f hf; cases hf
  | cons g rest ih =>
    intro acc f hf hmiss
    rcases List.mem_cons.mp hf with h | h
    · subst h
      simp only [List.foldl_cons]
      obtain ⟨ext, hext⟩ :=
        analyzeFold_findings_extend env rest (analyzeStep env acc f)
      rw [hext, analyzeStep_missing env acc f hmiss]
      simp
    · simp only [List.foldl_cons]
      exact ih (analyzeStep env acc g) f h hmiss

theorem analyze_request_sources (env : AnalysisEnv)
    (req : PresentationRequest) :
    (analyze_request env req).sources =
      (req.inputs.filter (fun f => f.fileExists)).map (fun f => f.resolved) := by
  have h :
      (analyze_request env req).sources =
        (req.inputs.foldl (analyzeStep env)
          ([],
            (if pyTruthy req.instructions then
              ["User focus: " ++ req.instructions.getD ""] else []),
            [], [])).2.2.2 := rfl
  rw [h, analyzeFold_sources]
  simp

theorem analyze_request_topics (env : AnalysisEnv)
    (req : PresentationRequest) :
    (analyze_request env req).topics =
      (let t := (req.inputs.filter (fun f => f.fileExists)).map
          (fun f => f.stem)
       if t.isEmpty then ["General overview"] else t) := by
  have h :
      (analyze_request env req).topics =
        (if (req.inputs.foldl (analyzeStep env)
            ([],
              (if pyTruthy req.instructions then
                ["User focus: " ++ req.instructions.getD ""] else []),
              [], [])).1.isEmpty then ["General overview"]
         else (req.inputs.foldl (analyzeStep env)
            ([],
              (if pyTruthy req.instructions then
                ["User focus: " ++ req.instructions.getD ""] else []),
              [], [])).1) := rfl
  rw [h, analyzeFold_topics]
  simp

theorem analyze_request_missing_mem (env : AnalysisEnv)
    (req : PresentationRequest) (f : FileInfo) (hf : f ∈ req.inputs)
    (hm : f.fileExists = false) :
    ("Missing input noted: " ++ f.pathStr) ∈
      (analyze_request env req).findings := by
  simp only [analyze_request]
  set F0 := (if pyTruthy req.instructions then
    ["User focus: " ++ req.instructions.getD ""] else []) with hF0
  set FD := req.inputs.foldl (analyzeStep env) ([], F0, [], []) with hFD
  have h0 : ("Missing input noted: " ++ f.pathStr) ∈ FD.2.1 := by
    rw [hFD]
    exact analyzeFold_missing_mem env req.inputs ([], F0, [], []) f hf hm
  split_ifs with h1 h2 h3 h4 h5
  · rw [List.isEmpty_iff] at h3
    exact absurd (h3 ▸ List.mem_append_left _ h0) (List.not_mem_nil _)
  · exact List.mem_append_left _ h0
  · rw [List.isEmpty_iff] at h4
    exact absurd (h4 ▸ h0) (List.not_mem_nil _)
  · exact h0
  · rw [List.isEmpty_iff] at h5
    exact absurd (h5 ▸ h0) (List.not_mem_nil _)
  · exact h0

theorem getD_of_lt {α : Type} (l : List α) (i : Nat) (d : α)
    (h : i < l.length) : l.getD i d = l[i] := by
  simp [List.getD_eq_getElem?_getD, List.getElem?_eq_getElem h]

/- ## Claims -/

/-- C1: for every `ContentSummary`, a supplied positive duration `d`
makes `generate_outline` return exactly `d` slides, and an absent
duration makes the slide count equal
`clamp(max(len(findings), len(topics), 1), 3, 12)`. -/
theorem C1_slide_count (s : ContentSummary) (prefs : List (String × String))
    (llm : Option (String → List String → List String)) (u : Bool) :
    (∀ d : Int, 0 < d →
      ((generate_outline s (some d) prefs llm u).slides.length : Int) = d) ∧
    (generate_outline s none prefs llm u).slides.length =
      min (max (max (max s.findings.length s.topics.length) 1) 3) 12 := by
  constructor
  · intro d hd
    rw [generate_outline_slides_length, estimate_slide_count_some_pos s hd]
    omega
  · rw [generate_outline_slides_length, estimate_slide_count_none]
    omega

/-- Witness for C1 at the repository's own test fixture: two-minute
duration gives exactly two slides. -/
theorem C1_slide_count_witness :
    (0 : Int) < 2 ∧
      ((generate_outline exSummary (some 2) [("palette", "dark")] none
          false).slides.length : Int) = 2 :=
  ⟨by decide,
    (C1_slide_count exSummary [("palette", "dark")] none false).1 2 (by decide)⟩

/-- C9: a zero or negative duration behaves exactly as an absent one
(the whole outline coincides), the fallback count lies in `[3, 12]`,
and every outline has at least one slide. -/
theorem C9_nonpositive_duration (s : ContentSummary)
    (prefs : List (String × String))
    (llm : Option (String → List String → List String)) (u : Bool) :
    (∀ d : Int, d ≤ 0 →
      generate_outline s (some d) prefs llm u =
          generate_outline s none prefs llm u ∧
        3 ≤ (generate_outline s (some d) prefs llm u).slides.length ∧
        (generate_outline s (some d) prefs llm u).slides.length ≤ 12) ∧
    ∀ dur : Option Int, 1 ≤ (generate_outline s dur prefs llm u).slides.length := by
  constructor
  · intro d hd
    have he := estimate_slide_count_nonpos s (d := d) hd
    have heq : generate_outline s (some d) prefs llm u =
        generate_outline s none prefs llm u := by
      unfold generate_outline
      rw [he]
    refine ⟨heq, ?_, ?_⟩
    · rw [generate_outline_slides_length, he]
      have := (estimate_slide_count_none_bounds s).1
      omega
    · rw [generate_outline_slides_length, he]
      have := (estimate_slide_count_none_bounds s).2
      omega
  · intro dur
    rw [generate_outline_slides_length]
    have := estimate_slide_count_pos s dur
    omega

/-- Witness for C9 at duration `-1`: the outline equals the
no-duration outline. -/
theorem C9_nonpositive_duration_witness :
    (-1 : Int) ≤ 0 ∧
      generate_outline exSummary (some (-1)) [] none false =
        generate_outline exSummary none [] none false :=
  ⟨by decide,
    ((C9_nonpositive_duration exSummary [] none false).1 (-1) (by decide)).1⟩

/-- C5: every slide of a generated outline carries the visual
suggestion `chart` when the summary has data points and `image`
otherwise; the choice depends only on the summary, so it is uniform
across the outline. -/
theorem C5_global_visual (s : ContentSummary) (dur : Option Int)
    (prefs : List (String × String))
    (llm : Option (String → List String → List String)) (u : Bool) :
    ∀ slide ∈ (generate_outline s dur prefs llm u).slides,
      slide.visual_suggestion =
        some (if s.data_points.isEmpty then "image" else "chart") := by
  intro slide hs
  obtain ⟨i, hi, rfl⟩ := List.mem_iff_getElem.mp hs
  rw [generate_outline_slide_visual s dur prefs llm u i hi]
  by_cases hdp : s.data_points.isEmpty <;> simp [_pick_visual, hdp]

/-- Witness for C5: the fixture summary has a data point, so slide 0
of its outline suggests a chart. -/
theorem C5_global_visual_witness :
    ((generate_outline exSummary (some 2) [] none
        false).slides.getD 0 default).visual_suggestion =
      some (if exSummary.data_points.isEmpty then "image" else "chart") :=
  C5_global_visual exSummary (some 2) [] none false
    ((generate_outline exSummary (some 2) [] none false).slides.getD 0 default)
    (by decide)

/-- C7: the `i`-th outline slide draws its topic cyclically from the
summary's topics (`["Overview"]` when empty) and titles it
`"{topic}: key takeaway"`. -/
theorem C7_cyclic_topics (s : ContentSummary) (dur : Option Int)
    (prefs : List (String × String))
    (llm : Option (String → List String → List String)) (u : Bool) (i : Nat)
    (h : i < (generate_outline s dur prefs llm u).slides.length) :
    ((generate_outline s dur prefs llm u).slides.getD i default).title =
      (effectiveTopics s).getD (i % (effectiveTopics s).length) "" ++
        ": key takeaway" := by
  rw [getD_of_lt _ i default h]
  rw [generate_outline_slide_title s dur prefs llm u i h]
  have hn : i < (_estimate_slide_count s dur).toNat := by
    rw [generate_outline_slides_length] at h
    exact h
  congr 1
  dsimp only
  by_cases hT : s.topics = []
  · simp [hT, effectiveTopics]
  · have htne : ¬ (s.topics.take (_estimate_slide_count s dur).toNat).isEmpty = true := by
      rw [List.isEmpty_iff, List.take_eq_nil_iff]
      push_neg
      exact ⟨by omega, hT⟩
    rw [if_neg htne]
    rw [effectiveTopics, if_neg (by simpa [List.isEmpty_iff] using hT)]
    rcases le_or_lt s.topics.length (_estimate_slide_count s dur).toNat with hle | hlt
    · rw [List.take_of_length_le hle]
    · have hlen : (s.topics.take (_estimate_slide_count s dur).toNat).length =
          (_estimate_slide_count s dur).toNat := by
        rw [List.length_take]; omega
      rw [hlen, Nat.mod_eq_of_lt hn, Nat.mod_eq_of_lt (by omega)]
      exact getD_take_of_lt _ _ i "" hn

/-- Witness for C7: with five slides over two topics, slide 2 reuses
topic `2 mod 2 = 0`, namely `Alpha`. -/
theorem C7_cyclic_topics_witness :
    ((generate_outline exSummary (some 5) [] none
        false).slides.getD 2 default).title =
      (effectiveTopics exSummary).getD (2 % (effectiveTopics exSummary).length)
          "" ++ ": key takeaway" :=
  C7_cyclic_topics exSummary (some 5) [] none false 2 (by decide)

/-- C2: `design_slides` produces one draft per outline slide, and the
`i`-th draft's layout is `["split", "stacked", "focus"][i mod 3]`,
independent of slide content; the cycle starts fresh on every call
because the iterator is local to the function. -/
theorem C2_layout_cycle (outline : OutlinePlan)
    (gen : Option (String → String → Option String))
    (dir : Option String) :
    (design_slides outline gen dir).length = outline.slides.length ∧
    ∀ i, i < outline.slides.length →
      ((design_slides outline gen dir).getD i default).layout =
        ["split", "stacked", "focus"].getD (i % 3) "" := by
  constructor
  · simp [design_slides, designGo_length]
  · intro i hi
    have hg : (design_slides outline gen dir).getD i default =
        ((design_slides outline gen dir).get? i).getD default := rfl
    rw [hg, design_slides_get? outline gen dir i]
    have hs : outline.slides.get? i = some outline.slides[i] := by
      simp [List.get?_eq_getElem?, List.getElem?_eq_getElem hi]
    rw [hs]
    simp [buildDraft]

/-- Witness for C2 on the four-slide fixture outline: draft 3 wraps
around to the `split` layout. -/
theorem C2_layout_cycle_witness :
    (3 : Nat) < exOutline.slides.length ∧
      ((design_slides exOutline none none).getD 3 default).layout =
        ["split", "stacked", "focus"].getD (3 % 3) "" :=
  ⟨by decide, (C2_layout_cycle exOutline none none).2 3 (by decide)⟩

/-- C10: when everything after the first colon of an outline title is
empty or whitespace, the designer's draft title is the empty string. -/
theorem C10_blank_after_colon (outline : OutlinePlan)
    (gen : Option (String → String → Option String))
    (dir : Option String) (i : Nat) (hi : i < outline.slides.length)
    (hcolon : ':' ∈ (outline.slides.getD i default).title.data)
    (hblank : (afterFirstColon
        (outline.slides.getD i default).title.data).all isPySpace = true) :
    ((design_slides outline gen dir).getD i default).title = "" := by
  rw [getD_of_lt _ i default hi] at hcolon hblank
  have hg : (design_slides outline gen dir).getD i default =
      ((design_slides outline gen dir).get? i).getD default := rfl
  rw [hg, design_slides_get? outline gen dir i]
  have hs : outline.slides.get? i = some outline.slides[i] := by
    simp [List.get?_eq_getElem?, List.getElem?_eq_getElem hi]
  rw [hs]
  simp only [Option.map_some', Option.getD_some]
  show _title_as_conclusion (outline.slides[i]).title = ""
  rw [_title_as_conclusion, if_pos hcolon]
  exact pyStrip_of_all_space hblank

/-- Witness for C10: the fixture title `"Delta:   "` becomes the empty
draft title. -/
theorem C10_blank_after_colon_witness :
    ((design_slides exOutline none none).getD 3 default).title = "" :=
  C10_blank_after_colon exOutline none none 3 (by decide) (by decide)
    (by decide)

/-- Counterexample to C3 as stated: on the two-colon title `"a:b:c"`
the designer's normalization gives `"b:c"` once and `"c"` twice, so it
is not idempotent on every title. -/
theorem C3_not_idempotent_counterexample :
    _title_as_conclusion (_title_as_conclusion "a:b:c") ≠
      _title_as_conclusion "a:b:c" := by decide

/-- C3 amended: title normalization is idempotent on every title with
at most one colon (which covers all titles the outliner itself
produces); a second colon is consumed by the second application. -/
theorem C3_idempotent_amended (t : String) (h : t.data.count ':' ≤ 1) :
    _title_as_conclusion (_title_as_conclusion t) = _title_as_conclusion t := by
  by_cases hm : ':' ∈ t.data
  · have hc1 : t.data.count ':' = 1 := by
      have := List.count_pos_iff.mpr hm
      omega
    have hc0 : (afterFirstColon t.data).count ':' = 0 := by
      have := count_afterFirstColon t.data hm
      omega
    have hnm : ':' ∉ afterFirstColon t.data := by
      rw [← List.count_eq_zero]
      exact hc0
    have h1 : _title_as_conclusion t =
        pyStrip (String.mk (afterFirstColon t.data)) := by
      rw [_title_as_conclusion, if_pos hm]
    have hnm2 : ':' ∉ (pyStrip (String.mk (afterFirstColon t.data))).data :=
      fun hc => hnm (mem_of_mem_pyStrip hc)
    rw [h1, _title_as_conclusion, if_neg hnm2]
  · have h1 : _title_as_conclusion t = t := by
      rw [_title_as_conclusion, if_neg hm]
    rw [h1, h1]

/-- Witness for the amended C3 at a one-colon title. -/
theorem C3_idempotent_amended_witness :
    ("Alpha: key takeaway").data.count ':' ≤ 1 ∧
      _title_as_conclusion (_title_as_conclusion "Alpha: key takeaway") =
        _title_as_conclusion "Alpha: key takeaway" :=
  ⟨by decide, C3_idempotent_amended "Alpha: key takeaway" (by decide)⟩

/-- C4: a title containing a colon maps to the whitespace-trimmed text
after its first colon (stated through an explicit decomposition
`pre ++ ':' :: post` with no colon in `pre`), and a colon-free title is
unchanged. -/
theorem C4_title_normalization :
    (∀ (t : String) (pre post : List Char),
      t.data = pre ++ ':' :: post → ':' ∉ pre →
        _title_as_conclusion t = pyStrip (String.mk post)) ∧
    ∀ t : String, ':' ∉ t.data → _title_as_conclusion t = t := by
  constructor
  · intro t pre post hdecomp hpre
    have hm : ':' ∈ t.data := by
      rw [hdecomp]
      exact List.mem_append_right _ (List.mem_cons_self _ _)
    rw [_title_as_conclusion, if_pos hm, hdecomp,
      afterFirstColon_append pre post hpre]
  · intro t hm
    rw [_title_as_conclusion, if_neg hm]

/-- Witness for C4 on `"Topic: key takeaway"`, whose normalized title
is the trimmed text after the colon. -/
theorem C4_title_normalization_witness :
    ("Topic: key takeaway").data =
        ("Topic").data ++ ':' :: (" key takeaway").data ∧
      _title_as_conclusion "Topic: key takeaway" =
        pyStrip (String.mk (" key takeaway").data) :=
  ⟨by decide,
    C4_title_normalization.1 "Topic: key takeaway" ("Topic").data
      (" key takeaway").data (by decide) (by decide)⟩

/-- C6: the outline's theme is the default
`{ratio: 16:9, font: Segoe UI, palette: high-contrast}` updated by the
style preferences: every preference key keeps its preference value
(including keys unknown to the defaults), and every default key not
overridden keeps its default value. -/
theorem C6_theme_merge (style_prefs : List (String × String)) :
    (∀ (s : ContentSummary) (dur : Option Int)
      (llm : Option (String → List String → List String)) (u : Bool),
      (generate_outline s dur style_prefs llm u).theme =
        _build_theme style_prefs) ∧
    (∀ k v, style_prefs.lookup k = some v →
      (_build_theme style_prefs).lookup k = some v) ∧
    (style_prefs.lookup "ratio" = none →
      (_build_theme style_prefs).lookup "ratio" = some "16:9") ∧
    (style_prefs.lookup "font" = none →
      (_build_theme style_prefs).lookup "font" = some "Segoe UI") ∧
    (style_prefs.lookup "palette" = none →
      (_build_theme style_prefs).lookup "palette" = some "high-contrast") := by
  refine ⟨fun s dur llm u => rfl, ?_, ?_, ?_, ?_⟩
  · intro k v h
    exact dictUpdate_lookup_override _ style_prefs k v h
  · intro h
    exact dictUpdate_lookup_keep _ style_prefs "ratio" "16:9" h (by decide)
  · intro h
    exact dictUpdate_lookup_keep _ style_prefs "font" "Segoe UI" h (by decide)
  · intro h
    exact dictUpdate_lookup_keep _ style_prefs "palette" "high-contrast" h
      (by decide)

/-- Witness for C6 with a palette override and an unknown custom key:
the override and the custom key win, the untouched defaults remain. -/
theorem C6_theme_merge_witness :
    (_build_theme [("palette", "dark"), ("custom", "x")]).lookup "palette" =
        some "dark" ∧
      (_build_theme [("palette", "dark"), ("custom", "x")]).lookup "custom" =
        some "x" ∧
      (_build_theme [("palette", "dark"), ("custom", "x")]).lookup "ratio" =
        some "16:9" ∧
      (_build_theme [("palette", "dark"), ("custom", "x")]).lookup "font" =
        some "Segoe UI" :=
  ⟨(C6_theme_merge [("palette", "dark"), ("custom", "x")]).2.1 "palette"
      "dark" (by decide),
    (C6_theme_merge [("palette", "dark"), ("custom", "x")]).2.1 "custom" "x"
      (by decide),
    (C6_theme_merge [("palette", "dark"), ("custom", "x")]).2.2.1 (by decide),
    (C6_theme_merge [("palette", "dark"), ("custom", "x")]).2.2.2.1
      (by decide)⟩

/-- Counterexample to C8 as stated: for the request holding only the
missing path `/tmp/gone.txt`, the recorded finding is
`"Missing input noted: /tmp/gone.txt"`, and no finding contains the
lowercase substring `"missing"` (Python's `in` is case-sensitive). -/
theorem C8_missing_lowercase_counterexample :
    (exReq.inputs.any (fun f => !f.fileExists)) = true ∧
      ((analyze_request exEnv exReq).findings.any
        (fun s => pyIn "missing" s)) = false := by
  constructor
  · decide
  · decide

/-- C8 amended: every missing input path yields the finding
`"Missing input noted: <path>"` (which contains `"Missing"`,
capitalized as in the code), contributes neither a topic nor a source,
and the other inputs are still processed: the sources are exactly the
resolved existing inputs in order, and the topics are exactly the
existing inputs' stems (with the `General overview` default when none
exist).  The embedding is total, so no exception is possible. -/
theorem C8_missing_input_amended (env : AnalysisEnv)
    (req : PresentationRequest) :
    (∀ f ∈ req.inputs, f.fileExists = false →
      ("Missing input noted: " ++ f.pathStr) ∈
          (analyze_request env req).findings ∧
        pyIn "Missing" ("Missing input noted: " ++ f.pathStr) = true) ∧
    (analyze_request env req).sources =
      (req.inputs.filter (fun f => f.fileExists)).map (fun f => f.resolved) ∧
    (analyze_request env req).topics =
      (let t := (req.inputs.filter (fun f => f.fileExists)).map
          (fun f => f.stem)
       if t.isEmpty then ["General overview"] else t) := by
  refine ⟨?_, analyze_request_sources env req, analyze_request_topics env req⟩
  intro f hf hm
  refine ⟨analyze_request_missing_mem env req f hf hm, ?_⟩
  show containsL ("Missing input noted: " ++ f.pathStr).data
    ("Missing").data = true
  rw [String.data_append]
  have hsplit : ("Missing input noted: ").data =
      ("Missing").data ++ (" input noted: ").data := by decide
  rw [hsplit, List.append_assoc]
  exact containsL_append_self _ _

/-- Witness for C8 amended on the two-input fixture request (one
missing file, one existing): the missing finding is present and only
the existing input contributes its topic and source. -/
theorem C8_missing_input_amended_witness :
    ("Missing input noted: " ++ exMissing.pathStr) ∈
        (analyze_request exEnv exReq).findings ∧
      (analyze_request exEnv exReq).sources =
        (exReq.inputs.filter (fun f => f.fileExists)).map
          (fun f => f.resolved) :=
  ⟨((C8_missing_input_amended exEnv exReq).1 exMissing (by decide)
      (by decide)).1,
    (C8_missing_input_amended exEnv exReq).2.1⟩
